import Mathlib

/-!
Verification of the kanbars core: grouping/sorting of tickets into lanes
(`model.rs`), lane rendering and text wrapping (`ui.rs`), and the board/detail
navigation state machine (`main.rs`).  All definitions are shallow embeddings of
the Rust source.  Machine integers (`usize`, `u8`) are modelled as `Nat`;
Rust's saturating subtraction is `Nat.sub`; an unchecked Rust subtraction that
can underflow is modelled with `checkedSub`, returning `none` exactly where the
Rust expression underflows (a panic in debug builds, a wrap in release builds).
String lengths follow Rust's `str::len`, i.e. UTF-8 byte counts.
-/

namespace Kanbars

/-- Needle-at-start test: the needle occurs at the very start of the hay
(char-by-char comparison, as in Rust slice matching). -/
def matchesAt : List Char → List Char → Bool
  | [], _ => true
  | _ :: _, [] => false
  | a :: as, b :: bs => a == b && matchesAt as bs

/-- Substring occurrence at any position, auxiliary on char lists. -/
def hasSubAux (needle : List Char) : List Char → Bool
  | [] => needle.isEmpty
  | c :: rest => matchesAt needle (c :: rest) || hasSubAux needle rest

/-- Embedding of Rust's `str::contains` for literal needles: true iff `needle`
occurs contiguously in `hay` (and always true for the empty needle). -/
def hasSubstr (hay needle : String) : Bool :=
  hasSubAux needle.toList hay.toList

/-- Embedding of Rust's `str::to_lowercase` (our inputs are ASCII, where
`Char.toLower` agrees with Rust's Unicode lowering). -/
def lowerStr (s : String) : String :=
  ⟨s.data.map Char.toLower⟩

/-- Ticket type enum from `model.rs` (`TicketType`). -/
inductive TicketType
  | story
  | bug
  | task
  | epic
deriving DecidableEq

/-- A ticket comment, from `model.rs` (`Comment`). -/
structure Comment where
  author : String
  created : String
  body : String
deriving DecidableEq

/-- Work item from `model.rs` (`Ticket`), extended fields optional. -/
structure Ticket where
  key : String
  ticketType : TicketType
  summary : String
  status : String
  assignee : String
  description : Option String
  priority : Option String
  reporter : Option String
  created : Option String
  updated : Option String
  labels : Option (List String)
  comments : Option (List Comment)
deriving DecidableEq

/-- Embedding of `TicketType::emoji` from `model.rs`. -/
def TicketType.emoji : TicketType → String
  | .bug => "🐛"
  | .story => "📖"
  | .task => "✓"
  | .epic => "🎯"

/-- Embedding of `get_status_priority` from `model.rs` lines 139-169: ordered keyword table,
first match wins, default 15. -/
def getStatusPriority (status : String) : Nat :=
  let s := lowerStr status
  if hasSubstr s "backlog" then 0
  else if hasSubstr s "todo" || s == "to do" then 1
  else if hasSubstr s "open" || hasSubstr s "new" then 2
  else if hasSubstr s "ready for development" || hasSubstr s "ready to start" then 3
  else if hasSubstr s "in progress" || hasSubstr s "in-progress" then 10
  else if hasSubstr s "development" || hasSubstr s "in dev" then 11
  else if hasSubstr s "coding" || hasSubstr s "implementing" then 12
  else if hasSubstr s "ready to ship" || hasSubstr s "ready for deploy" then 15
  else if hasSubstr s "review" || hasSubstr s "pr" then 20
  else if hasSubstr s "testing" || hasSubstr s "qa" then 21
  else if hasSubstr s "verification" || hasSubstr s "approval" then 22
  else if hasSubstr s "staging" then 23
  else if hasSubstr s "done" then 30
  else if hasSubstr s "closed" then 31
  else if hasSubstr s "resolved" then 32
  else if hasSubstr s "shipped" || hasSubstr s "deployed" then 33
  else if hasSubstr s "complete" then 34
  else 15

/-- Embedding of `get_status_emoji` from `model.rs` lines 172-194. -/
def getStatusEmoji (status : String) : String :=
  let s := lowerStr status
  if hasSubstr s "done" || hasSubstr s "closed" || hasSubstr s "resolved" ||
      hasSubstr s "complete" then "✅"
  else if hasSubstr s "progress" || hasSubstr s "development" ||
      hasSubstr s "coding" || hasSubstr s "ship" then "🚀"
  else if hasSubstr s "review" || hasSubstr s "testing" || hasSubstr s "qa" ||
      hasSubstr s "verification" then "🔍"
  else if hasSubstr s "todo" || hasSubstr s "backlog" || s == "to do" ||
      hasSubstr s "open" then "📋"
  else "📌"

/-- The subset of `ratatui` colors used by `get_status_color`. -/
inductive JColor
  | green
  | yellow
  | magenta
  | cyan
  | blue
deriving DecidableEq

/-- Embedding of `get_status_color` from `model.rs` lines 197-220. -/
def getStatusColor (status : String) : JColor :=
  let s := lowerStr status
  if hasSubstr s "done" || hasSubstr s "closed" || hasSubstr s "resolved" ||
      hasSubstr s "complete" then .green
  else if hasSubstr s "progress" || hasSubstr s "development" ||
      hasSubstr s "coding" || hasSubstr s "ship" then .yellow
  else if hasSubstr s "review" || hasSubstr s "testing" || hasSubstr s "qa" ||
      hasSubstr s "verification" then .magenta
  else if hasSubstr s "todo" || hasSubstr s "backlog" || s == "to do" ||
      hasSubstr s "open" then .cyan
  else .blue

/-!
## Grouping (`StatusGroups`, `model.rs` lines 56-104)

Rust's `StatusGroups.groups` is a `BTreeMap<String, Vec<Ticket>>`; we model it
as an association list sorted strictly by key, in the same order as Rust's
`Ord for String` (byte-lexicographic, which UTF-8 makes identical to Lean's
code-point order `String.lt`).
-/

/-- The grouping result: status string ↦ tickets, kept sorted by key. -/
abbrev Groups := List (String × List Ticket)

/-- Lexicographic order on char lists by code point; on UTF-8 data this is
exactly the byte-lexicographic `Ord for String` that Rust's `BTreeMap` uses. -/
def listLtB : List Char → List Char → Bool
  | [], [] => false
  | [], _ :: _ => true
  | _ :: _, [] => false
  | a :: as, b :: bs =>
    if a.toNat < b.toNat then true
    else if b.toNat < a.toNat then false
    else listLtB as bs

/-- Rust's `String` ordering (strict), used for `BTreeMap` key placement. -/
def strLtB (s t : String) : Bool :=
  listLtB s.data t.data

/-- Stable insertion into a rank-sorted ticket list: the new (earlier-in-input)
element goes before any later element of equal rank.  `Vec::sort_by` in
`from_tickets` is a stable sort; stable sorts by the same key agree, so this
insertion sort is its embedding. -/
def insertByRank (t : Ticket) : List Ticket → List Ticket
  | [] => [t]
  | u :: us =>
    if getStatusPriority u.status < getStatusPriority t.status then
      u :: insertByRank t us
    else
      t :: u :: us

/-- Embedding of `tickets.sort_by(...)` in `from_tickets` (`model.rs` lines 89-93): stable
sort of the ticket list by `get_status_priority`. -/
def sortByRank (ts : List Ticket) : List Ticket :=
  ts.foldr insertByRank []

/-- One step of the grouping fold (`model.rs` lines 96-101):
`groups.entry(ticket.status.clone()).or_insert_with(Vec::new).push(ticket)`
on a `BTreeMap`, i.e. append to the existing group or create a new group at
the key-sorted position. -/
def insertTicket (g : Groups) (t : Ticket) : Groups :=
  match g with
  | [] => [(t.status, [t])]
  | (k, ts) :: rest =>
    if t.status = k then (k, ts ++ [t]) :: rest
    else if strLtB t.status k then (t.status, [t]) :: (k, ts) :: rest
    else (k, ts) :: insertTicket rest t

/-- Embedding of `StatusGroups::from_tickets` (`model.rs` lines 85-104): stable-sort by
priority, then fold the tickets into the `BTreeMap`. -/
def fromTickets (ts : List Ticket) : Groups :=
  (sortByRank ts).foldl insertTicket []

/-- Embedding of `StatusGroups::total_tickets` (`model.rs` lines 68-70). -/
def totalTickets (g : Groups) : Nat :=
  (g.map (fun p => p.2.length)).sum

/-- Embedding of `StatusGroups::get_ticket_by_index` (`model.rs` lines 72-83): walk the
groups in map order accumulating counts; Rust keeps `global_index` fixed and
grows `current_index`, which is the same as shrinking the index by each
skipped group's length. -/
def getTicketByIndex (g : Groups) (i : Nat) : Option Ticket :=
  match g with
  | [] => none
  | (_, ts) :: rest =>
    if i < ts.length then ts[i]? else getTicketByIndex rest (i - ts.length)

/-- All tickets of the grouping, in lane-major order (the concatenation the
global selection index runs over). -/
def allTickets (g : Groups) : List Ticket :=
  (g.map (fun p => p.2)).flatten

/-- A board ticket as produced by the initial fetch: extended fields absent. -/
def mkTicket (key : String) (status : String) : Ticket :=
  { key := key, ticketType := .task, summary := "", status := status,
    assignee := "", description := none, priority := none, reporter := none,
    created := none, updated := none, labels := none, comments := none }

def ticketA1 : Ticket := mkTicket "A-1" "To Do"
def ticketA2 : Ticket := mkTicket "A-2" "Done"
def ticketA3 : Ticket := mkTicket "A-3" "To Do"


/-!
## Lane rendering (`draw_lane`, `ui.rs` lines 158-301)

Lines are modelled by their text content (styling dropped).  Rust's `usize`
subtraction appears twice unchecked (`area.height as usize - 1`,
`content_width - 4`); `checkedSub` returns `none` exactly where those
expressions underflow.  `str::len` is a UTF-8 byte count, modelled by
`bytesOf`.
-/

/-- Unchecked `usize` subtraction: `none` signals the underflow that panics a
debug build (and wraps in release). -/
def checkedSub (a b : Nat) : Option Nat :=
  if b ≤ a then some (a - b) else none

/-- Rust `str::len`: the UTF-8 byte size of the string. -/
def bytesOf (s : String) : Nat :=
  (s.data.map Char.utf8Size).sum

/-- Drop leading and trailing whitespace, as Rust's `str::trim`. -/
def trimChars (l : List Char) : List Char :=
  ((l.dropWhile Char.isWhitespace).reverse.dropWhile Char.isWhitespace).reverse

/-- Assignee display name (`ui.rs` lines 194-198):
`assignee.split('@').next().unwrap_or(assignee).trim()`, i.e. the part before
the first `@`, trimmed. -/
def assigneeDisplay (assignee : String) : String :=
  ⟨trimChars (assignee.data.takeWhile (fun c => c != '@'))⟩

/-- The prefix whose byte length drives the wrap width (`ui.rs` lines 201-205):
`"<emoji> <key> @<assignee> "` when an assignee is shown, else
`"<emoji> <key> "`. -/
def ticketPfx (t : Ticket) : String :=
  let a := assigneeDisplay t.assignee
  if a ≠ "" ∧ a ≠ "unassigned" then
    t.ticketType.emoji ++ " " ++ t.key ++ " @" ++ a ++ " "
  else
    t.ticketType.emoji ++ " " ++ t.key ++ " "

/-- Width left for the summary on the first line (`ui.rs` lines 206-208):
`content_width.saturating_sub(prefix.len() + 3)` (the `+ 3` accounts for
`" • "`). -/
def availFor (contentWidth : Nat) (t : Ticket) : Nat :=
  contentWidth - (bytesOf (ticketPfx t) + 3)

/-- Word accumulator for `split_whitespace`. -/
def wordsAux : List Char → List Char → List String
  | [], cur => if cur.isEmpty then [] else [⟨cur.reverse⟩]
  | c :: rest, cur =>
    if c.isWhitespace then
      if cur.isEmpty then wordsAux rest [] else (⟨cur.reverse⟩ : String) :: wordsAux rest []
    else
      wordsAux rest (c :: cur)

/-- Rust's `str::split_whitespace`: maximal runs of non-whitespace chars. -/
def splitWhite (s : String) : List String :=
  wordsAux s.data []

/-- The greedy two-line word fill (`ui.rs` lines 253-267).  State is
`(first_line, current_len, second_line)`; a word goes onto the first line while
it fits, otherwise starts or extends the second line, where the width check
`content_width - 4` is unchecked Rust subtraction (short-circuited away when
the second line is still empty). -/
def fitWords (avail cw : Nat) : List String → String → Nat → String →
    Option (String × String)
  | [], first, _, second => some (first, second)
  | w :: ws, first, curLen, second =>
    if curLen + bytesOf w + 1 ≤ avail then
      if first = "" then
        fitWords avail cw ws (first ++ w) (curLen + bytesOf w) second
      else
        fitWords avail cw ws (first ++ " " ++ w) (curLen + 1 + bytesOf w) second
    else if second = "" then
      fitWords avail cw ws first curLen w
    else
      match checkedSub cw 4 with
      | none => none
      | some cw4 =>
        if bytesOf second + bytesOf w + 1 ≤ cw4 then
          fitWords avail cw ws first curLen (second ++ " " ++ w)
        else
          fitWords avail cw ws first curLen second

/-- Claim-side characterization of "some word overflows the greedy first-line
fit": replays only the width accounting of the greedy scan (`curLen`, plus one
byte for the joining space once a word has been accepted) and reports whether
any word fails the first-line width check.  It builds no strings and computes
no output, in contrast to `fitWords`. -/
def greedyOverflowAux (avail : Nat) : List String → Nat → Bool → Bool
  | [], _, _ => false
  | w :: ws, curLen, firstEmpty =>
    if curLen + bytesOf w + 1 ≤ avail then
      greedyOverflowAux avail ws
        (if firstEmpty then curLen + bytesOf w else curLen + 1 + bytesOf w) false
    else true

/-- True iff the greedy first-line scan with width `avail` rejects at least
one of the given words. -/
def greedyOverflow (avail : Nat) (ws : List String) : Bool :=
  greedyOverflowAux avail ws 0 true

/-- The 1-2 content lines of one ticket (`ui.rs` lines 188-279): selection
indicator, emoji, key, optional assignee, `" • "`, then the summary either
whole (when its byte length fits `availFor`) or greedily wrapped with an
indented continuation line that is emitted only when non-empty. -/
def ticketLines (contentWidth : Nat) (isSelected : Bool) (t : Ticket) :
    Option (List String) :=
  let a := assigneeDisplay t.assignee
  let base := (if isSelected then "▶ " else "  ") ++ t.ticketType.emoji ++ " " ++
    t.key ++ (if a ≠ "" ∧ a ≠ "unassigned" then " @" ++ a else "") ++ " • "
  let avail := availFor contentWidth t
  if bytesOf t.summary ≤ avail then
    some [base ++ t.summary]
  else
    match fitWords avail contentWidth (splitWhite t.summary) "" 0 "" with
    | none => none
    | some (first, second) =>
      if second = "" then some [base ++ first]
      else some [base ++ first, "    " ++ second]

/-- The ticket loop of `draw_lane` (`ui.rs` lines 180-285): separator between
tickets while room remains (`i > 0` short-circuits the unchecked `height - 1`
there), then the ticket's lines, then the unguarded `height - 1` overflow
break check. -/
def laneLoop (cw h : Nat) (sel : Option Nat) :
    List Ticket → Nat → List String → Option (List String)
  | [], _, lines => some lines
  | t :: ts, i, lines =>
    let sep :=
      if 0 < i then
        match checkedSub h 1 with
        | none => none
        | some hm1 => some (if lines.length < hm1 then lines ++ [""] else lines)
      else some lines
    match sep with
    | none => none
    | some lines1 =>
      match ticketLines cw (sel == some i) t with
      | none => none
      | some tl =>
        let lines2 := lines1 ++ tl
        match checkedSub h 1 with
        | none => none
        | some hm1 =>
          if hm1 ≤ lines2.length then some lines2
          else laneLoop cw h sel ts (i + 1) lines2

/-- Embedding of the full line list of `draw_lane` (`ui.rs` lines 176-294), overflow
indicator.  The Rust indicator count is
`tickets.iter().take_while(|_| lines.len() < height - 1).count()`: the
predicate ignores its element, so the count is all-or-nothing, and the
predicate (with its unchecked `height - 1`) is never evaluated when the ticket
list is empty. -/
def drawLaneLines (cw h : Nat) (tickets : List Ticket) (sel : Option Nat) :
    Option (List String) :=
  match laneLoop cw h sel tickets 0 [] with
  | none => none
  | some lines =>
    match tickets with
    | [] => some lines
    | _ :: _ =>
      match checkedSub h 1 with
      | none => none
      | some hm1 =>
        let cnt := if lines.length < hm1 then tickets.length else 0
        if cnt < tickets.length then
          some (lines ++ ["  ...and " ++ toString (tickets.length - cnt) ++ " more"])
        else
          some lines

/-- A minimal board ticket with a summary, for concrete evaluations. -/
def mkSumTicket (key summary : String) : Ticket :=
  { mkTicket key "To Do" with summary := summary }


/-!
## Navigation and UI state machine (`main.rs` lines 94-212, `ui.rs` lines 10-23)
-/

/-- Embedding of `UiMode` from `ui.rs`. -/
inductive UiMode
  | board
  | detail
deriving DecidableEq

/-- Embedding of `AppState` from `ui.rs` lines 16-23. -/
structure AppState where
  mode : UiMode
  selectedIndex : Nat
  detailTicket : Option Ticket
  detailScroll : Nat
  detailMaxScroll : Nat
deriving DecidableEq

/-- Down key (or j) in Board mode (`main.rs` lines 153-158):
`(index + 1) % total` when any tickets exist. -/
def moveDown (total i : Nat) : Nat :=
  if 0 < total then (i + 1) % total else i

/-- Up key (or k) in Board mode (`main.rs` lines 144-152): decrement, wrapping to
`total - 1` from index 0 when any tickets exist. -/
def moveUp (total i : Nat) : Nat :=
  if 0 < i then i - 1 else if 0 < total then total - 1 else i

/-- Enter in Board mode (`main.rs` lines 159-183).  The synchronous detail
fetch (`jira_api::fetch_ticket_details`, an external collaborator) is
abstracted as a function from the ticket key to a result; on error its text is
stored into the description, and the transition to Detail with scroll 0 always
happens once the selected ticket resolves. -/
def boardEnter (g : Groups) (fetch : String → Except String Ticket)
    (st : AppState) : AppState :=
  match getTicketByIndex g st.selectedIndex with
  | none => st
  | some t =>
    let detailed :=
      if t.description.isNone then
        match fetch t.key with
        | .ok full => full
        | .error e =>
          { t with description := some ("[Error fetching details]\n\n" ++ e) }
      else t
    { st with detailTicket := some detailed, detailScroll := 0, mode := .detail }

/-- The Detail-mode scroll keys (`main.rs` lines 194-209). -/
inductive DetailKey
  | up
  | down
  | pageUp
  | pageDown
deriving DecidableEq

/-- One Detail-mode scroll step (`main.rs` lines 194-209): ±1 guarded at the
bounds, page keys by 10 with `saturating_sub` / `min`. -/
def detailScrollStep (maxScroll s : Nat) : DetailKey → Nat
  | .up => if 0 < s then s - 1 else s
  | .down => if s < maxScroll then s + 1 else s
  | .pageUp => s - 10
  | .pageDown => min (s + 10) maxScroll

/-- A sequence of Detail-mode scroll keys applied in order. -/
def detailScrollRun (maxScroll : Nat) (s : Nat) (ks : List DetailKey) : Nat :=
  ks.foldl (detailScrollStep maxScroll) s

/-- The scroll bound recomputed by every detail render (`ui.rs` lines 421-430):
`total_lines.saturating_sub(visible_lines)`; the render also clamps the stored
scroll to it with `min`. -/
def detailMaxScroll (totalLines viewportHeight : Nat) : Nat :=
  totalLines - viewportHeight

/-- The render-time clamp `detail_scroll.min(max_scroll)` (`ui.rs` line 430). -/
def renderClamp (maxScroll s : Nat) : Nat :=
  min s maxScroll

/-- A fetch stub that always fails, for concrete evaluations. -/
def fetchFail : String → Except String Ticket := fun _ => .error "boom"

/-- A Board-mode state with the selection at index 0. -/
def boardState0 : AppState :=
  { mode := .board, selectedIndex := 0, detailTicket := none,
    detailScroll := 3, detailMaxScroll := 7 }

/-- A Board-mode state whose selection is past the end of the sample board. -/
def boardState5 : AppState :=
  { mode := .board, selectedIndex := 5, detailTicket := none,
    detailScroll := 0, detailMaxScroll := 0 }


/-!
## Shared lemmas
-/

theorem insertByRank_perm (t : Ticket) (l : List Ticket) :
    (insertByRank t l).Perm (t :: l) := by
  induction l with
  | nil => simp [insertByRank]
  | cons u us ih =>
    by_cases h : getStatusPriority u.status < getStatusPriority t.status
    · simp only [insertByRank, if_pos h]
      exact (ih.cons u).trans (List.Perm.swap t u us)
    · simp [insertByRank, if_neg h]

theorem sortByRank_perm (ts : List Ticket) : (sortByRank ts).Perm ts := by
  induction ts with
  | nil => simp [sortByRank]
  | cons t ts ih =>
    simpa [sortByRank] using (insertByRank_perm t (sortByRank ts)).trans (ih.cons t)

theorem allTickets_cons (k : String) (ts : List Ticket) (rest : Groups) :
    allTickets ((k, ts) :: rest) = ts ++ allTickets rest := rfl

theorem allTickets_insertTicket (g : Groups) (t : Ticket) :
    (allTickets (insertTicket g t)).Perm (t :: allTickets g) := by
  induction g with
  | nil => simp [allTickets, insertTicket]
  | cons p rest ih =>
    obtain ⟨k, ts⟩ := p
    by_cases h1 : t.status = k
    · rw [show insertTicket ((k, ts) :: rest) t = (k, ts ++ [t]) :: rest from by
        simp [insertTicket, h1]]
      rw [allTickets_cons, allTickets_cons, List.append_assoc]
      exact List.perm_middle
    · by_cases h2 : strLtB t.status k = true
      · rw [show insertTicket ((k, ts) :: rest) t = (t.status, [t]) :: (k, ts) :: rest
          from by simp [insertTicket, h1, h2]]
        rw [allTickets_cons, allTickets_cons]
        exact List.Perm.refl _
      · rw [show insertTicket ((k, ts) :: rest) t = (k, ts) :: insertTicket rest t
          from by simp [insertTicket, h1, h2]]
        rw [allTickets_cons, allTickets_cons]
        exact (List.Perm.append_left ts ih).trans List.perm_middle

theorem allTickets_foldl (ts : List Ticket) (g : Groups) :
    (allTickets (ts.foldl insertTicket g)).Perm (allTickets g ++ ts) := by
  induction ts generalizing g with
  | nil => simp
  | cons t ts ih =>
    have h1 : (allTickets ((t :: ts).foldl insertTicket g)).Perm
        (allTickets (insertTicket g t) ++ ts) := ih (insertTicket g t)
    have h2 : (allTickets (insertTicket g t) ++ ts).Perm ((t :: allTickets g) ++ ts) :=
      (allTickets_insertTicket g t).append_right ts
    have h3 : (t :: (allTickets g ++ ts)).Perm (allTickets g ++ t :: ts) :=
      List.perm_middle.symm
    exact h1.trans (h2.trans h3)

theorem totalTickets_eq_length (g : Groups) :
    totalTickets g = (allTickets g).length := by
  induction g with
  | nil => simp [totalTickets, allTickets]
  | cons p rest ih => simp [totalTickets, allTickets] at ih ⊢; omega

theorem fromTickets_perm (ts : List Ticket) :
    (allTickets (fromTickets ts)).Perm ts := by
  have h1 := allTickets_foldl (sortByRank ts) []
  have h2 : allTickets ([] : Groups) = [] := rfl
  rw [h2, List.nil_append] at h1
  exact h1.trans (sortByRank_perm ts)

theorem getTicketByIndex_none (g : Groups) (i : Nat)
    (h : totalTickets g ≤ i) : getTicketByIndex g i = none := by
  induction g generalizing i with
  | nil => rfl
  | cons p rest ih =>
    obtain ⟨k, ts⟩ := p
    simp only [totalTickets, List.map_cons, List.sum_cons] at h
    have hlen : ¬ i < ts.length := by
      have := (List.map (fun p => p.2.length) rest).sum
      omega
    simp only [getTicketByIndex, if_neg hlen]
    exact ih (i - ts.length) (by simp [totalTickets]; omega)

theorem detailScrollStep_le (m s : Nat) (k : DetailKey) (h : s ≤ m) :
    detailScrollStep m s k ≤ m := by
  cases k <;> simp only [detailScrollStep] <;>
    first
      | (split <;> omega)
      | omega

theorem detailScrollRun_le (m s : Nat) (ks : List DetailKey) (h : s ≤ m) :
    detailScrollRun m s ks ≤ m := by
  induction ks generalizing s with
  | nil => exact h
  | cons k ks ih => exact ih (detailScrollStep m s k) (detailScrollStep_le m s k h)

theorem strData_append (a b : String) : (a ++ b).data = a.data ++ b.data := by
  cases a; cases b; rfl

theorem str_ne_empty (s : String) (h : s.data ≠ []) : s ≠ "" := by
  intro he
  rw [he] at h
  exact h rfl

theorem append_data_ne_left (a b : String) (h : a.data ≠ []) :
    (a ++ b).data ≠ [] := by
  rw [strData_append]
  simp [h]

theorem append_data_ne_right (a b : String) (h : b.data ≠ []) :
    (a ++ b).data ≠ [] := by
  rw [strData_append]
  simp [h]

theorem wordsAux_ne_empty (l : List Char) : ∀ (cur : List Char) (w : String),
    w ∈ wordsAux l cur → w.data ≠ [] := by
  induction l with
  | nil =>
    intro cur w hw
    simp only [wordsAux] at hw
    split at hw
    · simp at hw
    · rename_i hcur
      simp only [List.mem_singleton] at hw
      subst hw
      intro hdata
      have hc : cur = [] := by simpa using hdata
      rw [hc] at hcur
      simp at hcur
  | cons c rest ih =>
    intro cur w hw
    simp only [wordsAux] at hw
    split at hw
    · split at hw
      · exact ih [] w hw
      · rename_i hcur
        rcases List.mem_cons.mp hw with h1 | h2
        · subst h1
          intro hdata
          have hc : cur = [] := by simpa using hdata
          rw [hc] at hcur
          simp at hcur
        · exact ih [] w h2
    · exact ih (c :: cur) w hw

theorem fitWords_second_ne (avail cw : Nat) (ws : List String) :
    ∀ (f : String) (c : Nat) (s f' s' : String), s.data ≠ [] →
    fitWords avail cw ws f c s = some (f', s') → s'.data ≠ [] := by
  induction ws with
  | nil =>
    intro f c s f' s' hs hfit
    simp only [fitWords, Option.some.injEq, Prod.mk.injEq] at hfit
    obtain ⟨-, hs'⟩ := hfit
    subst hs'
    exact hs
  | cons w ws ih =>
    intro f c s f' s' hs hfit
    simp only [fitWords] at hfit
    split at hfit
    · split at hfit
      · exact ih _ _ _ _ _ hs hfit
      · exact ih _ _ _ _ _ hs hfit
    · split at hfit
      · rename_i hsEmpty
        subst hsEmpty
        exact absurd rfl hs
      · split at hfit
        · exact absurd hfit (by simp)
        · split at hfit
          · exact ih _ _ _ _ _
              (append_data_ne_left _ _ (append_data_ne_left _ _ hs)) hfit
          · exact ih _ _ _ _ _ hs hfit

theorem fitWords_overflow_iff (avail cw : Nat) (ws : List String) :
    ∀ (f : String) (c : Nat) (f' s' : String), (∀ w ∈ ws, w.data ≠ []) →
    fitWords avail cw ws f c "" = some (f', s') →
    (s' = "" ↔ greedyOverflowAux avail ws c (f == "") = false) := by
  induction ws with
  | nil =>
    intro f c f' s' _ hfit
    simp only [fitWords, Option.some.injEq, Prod.mk.injEq] at hfit
    obtain ⟨-, hs'⟩ := hfit
    subst hs'
    simp [greedyOverflowAux]
  | cons w ws ih =>
    intro f c f' s' hne hfit
    have hw : w.data ≠ [] := hne w (List.mem_cons_self w ws)
    have hne' : ∀ u ∈ ws, u.data ≠ [] := fun u hu => hne u (List.mem_cons_of_mem w hu)
    simp only [fitWords] at hfit
    split at hfit
    · rename_i hacc
      split at hfit
      · rename_i hf
        have hiff := ih (f ++ w) (c + bytesOf w) f' s' hne' hfit
        have hfw : ((f ++ w) == "") = false := by
          simp only [beq_eq_false_iff_ne, ne_eq]
          exact str_ne_empty _ (append_data_ne_right _ _ hw)
        rw [hfw] at hiff
        have hfeq : (f == "") = true := by simp [hf]
        have hg : greedyOverflowAux avail (w :: ws) c (f == "") =
            greedyOverflowAux avail ws (c + bytesOf w) false := by
          simp [greedyOverflowAux, hacc, hfeq]
        rw [hg]
        exact hiff
      · rename_i hf
        have hiff := ih (f ++ " " ++ w) (c + 1 + bytesOf w) f' s' hne' hfit
        have hfw : ((f ++ " " ++ w) == "") = false := by
          simp only [beq_eq_false_iff_ne, ne_eq]
          exact str_ne_empty _ (append_data_ne_right _ _ hw)
        rw [hfw] at hiff
        have hfeq : (f == "") = false := by
          simp only [beq_eq_false_iff_ne, ne_eq]
          exact hf
        have hg : greedyOverflowAux avail (w :: ws) c (f == "") =
            greedyOverflowAux avail ws (c + 1 + bytesOf w) false := by
          simp [greedyOverflowAux, hacc, hfeq]
        rw [hg]
        exact hiff
    · rename_i hacc
      rw [if_pos trivial] at hfit
      have hs' : s'.data ≠ [] := fitWords_second_ne avail cw ws f c w f' s' hw hfit
      have hsne : s' ≠ "" := str_ne_empty s' hs'
      have hg : greedyOverflowAux avail (w :: ws) c (f == "") = true := by
        simp [greedyOverflowAux, hacc]
      rw [hg]
      simp [hsne]

/-!
## Claim theorems
-/

/-- C1: the claim says `StatusGroups::from_tickets` iterates lanes in ascending
status-rank order, so on `[A-1 "To Do", A-2 "Done", A-3 "To Do"]` the first
lane would be "To Do" and global index 0 would resolve to A-1.  The code
stores the groups in a `BTreeMap`, which iterates keys lexicographically:
"Done" comes before "To Do", the pre-sort by rank has no observable effect,
and index 0 resolves to A-2.  This theorem evaluates the code at the claim's
own input. -/
theorem c1_lanes_lexicographic_eval :
    fromTickets [ticketA1, ticketA2, ticketA3] =
      [("Done", [ticketA2]), ("To Do", [ticketA1, ticketA3])] ∧
    getTicketByIndex (fromTickets [ticketA1, ticketA2, ticketA3]) 0 = some ticketA2 ∧
    getTicketByIndex (fromTickets [ticketA1, ticketA2, ticketA3]) 1 = some ticketA1 ∧
    getTicketByIndex (fromTickets [ticketA1, ticketA2, ticketA3]) 2 = some ticketA3 :=
  ⟨by decide, by decide, by decide, by decide⟩

/-- C2: the claim says lane rendering never underflows for any canvas size,
including height and width zero.  `draw_lane` computes
`area.height as usize - 1` unchecked (underflows whenever the lane height is 0
and a ticket is processed) and `content_width - 4` unchecked in the wrap step
(underflows when the content width is below 4 and a second wrapped word
arrives); both evaluate to the underflow marker `none` here. -/
theorem c2_underflow_eval :
    drawLaneLines 80 0 [mkSumTicket "T-1" "a"] none = none ∧
    drawLaneLines 3 5 [mkSumTicket "T" "aa bb"] none = none :=
  ⟨by decide, by decide⟩

/-- C3 counterexample: the claim puts "Shipped" in the done bucket and
"Blocked" in the todo bucket, but the bucket tables give "Shipped" the
progress palette (its keyword rule for "ship" fires before nothing else
matches) and "Blocked" the default palette, not the todo one. -/
theorem c3_counterexample :
    getStatusEmoji "Shipped" ≠ "✅" ∧ getStatusColor "Shipped" ≠ .green ∧
    getStatusEmoji "Blocked" ≠ "📋" ∧ getStatusColor "Blocked" ≠ .cyan :=
  ⟨by decide, by decide, by decide, by decide⟩

/-- C3 amended: "To Do" → rank 1, todo bucket (📋/cyan); "Code Review" →
rank 20, review bucket (🔍/magenta); "Shipped" → rank 33 but the progress
bucket (🚀/yellow), because the coarser bucket table matches "ship";
unrecognized "Blocked" → default rank 15 and the default bucket (📌/blue),
which is distinct from the todo bucket. -/
theorem c3_classifier_amended :
    (getStatusPriority "To Do" = 1 ∧ getStatusEmoji "To Do" = "📋" ∧
      getStatusColor "To Do" = .cyan) ∧
    (getStatusPriority "Code Review" = 20 ∧ getStatusEmoji "Code Review" = "🔍" ∧
      getStatusColor "Code Review" = .magenta) ∧
    (getStatusPriority "Shipped" = 33 ∧ getStatusEmoji "Shipped" = "🚀" ∧
      getStatusColor "Shipped" = .yellow) ∧
    (getStatusPriority "Blocked" = 15 ∧ getStatusEmoji "Blocked" = "📌" ∧
      getStatusColor "Blocked" = .blue) :=
  ⟨⟨by decide, by decide, by decide⟩, ⟨by decide, by decide, by decide⟩,
    ⟨by decide, by decide, by decide⟩, ⟨by decide, by decide, by decide⟩⟩

/-- C4: the grouping is a partition of the input: the group lengths sum to
the input length, and the concatenation of the groups is a permutation of the
input, so every input ticket occurrence lands in exactly one group, none
dropped or duplicated. -/
theorem c4_partition (ts : List Ticket) :
    totalTickets (fromTickets ts) = ts.length ∧
    (allTickets (fromTickets ts)).Perm ts := by
  have hp := fromTickets_perm ts
  exact ⟨(totalTickets_eq_length _).trans hp.length_eq, hp⟩

/-- C5: from any `detail_scroll ≤ detail_max_scroll`, every sequence of
up/down/page-up/page-down Detail-mode keys keeps the scroll within the bound
(the lower bound 0 is inherent to `Nat`), and when the viewport is at least
the content height the recomputed `max(0, total_lines - viewport)` bound is 0. -/
theorem c5_scroll_invariant :
    (∀ (maxScroll s : Nat) (ks : List DetailKey), s ≤ maxScroll →
      detailScrollRun maxScroll s ks ≤ maxScroll) ∧
    (∀ totalLines viewportHeight : Nat, totalLines ≤ viewportHeight →
      detailMaxScroll totalLines viewportHeight = 0) :=
  ⟨fun m s ks h => detailScrollRun_le m s ks h,
    fun t v h => by simp [detailMaxScroll]; omega⟩

theorem c5_scroll_invariant_witness :
    detailScrollRun 5 3 [.down, .pageDown, .up, .pageUp, .down] ≤ 5 ∧
    detailMaxScroll 3 10 = 0 :=
  ⟨c5_scroll_invariant.1 5 3 [.down, .pageDown, .up, .pageUp, .down] (by decide),
    c5_scroll_invariant.2 3 10 (by decide)⟩

/-- C6 counterexample: the claim says a summary of W+1 characters (W the
width available after the prefix) renders on exactly two lines, the second
possibly shortened.  With content width 14 the ticket below has W = 5 and a
6-byte summary "ab cd ", yet renders on exactly one line: the wrap path
re-packs whole words, the trailing blank is not a word, and the empty second
line is not emitted. -/
theorem c6_counterexample :
    bytesOf (mkSumTicket "K" "ab cd ").summary =
      availFor 14 (mkSumTicket "K" "ab cd ") + 1 ∧
    ticketLines 14 false (mkSumTicket "K" "ab cd ") = some ["  ✓ K • ab cd"] ∧
    (ticketLines 14 false (mkSumTicket "K" "ab cd ")).map List.length = some 1 :=
  ⟨by decide, by decide, by decide⟩

/-- C6 amended: a summary of at most W bytes (W the width left after the
prefix) renders on exactly one line; otherwise the ticket renders on exactly
two lines precisely when some word overflows the greedy first-line fit (the
overflow words go to the indented second line, those not fitting it silently
dropped, so it may be shorter), and on a single line precisely when every word
fits the first line (possible when the excess length is whitespace); there is
never a third line per ticket. -/
theorem c6_wrap_amended (cw : Nat) (isSel : Bool) (t : Ticket) (ls : List String)
    (h : ticketLines cw isSel t = some ls) :
    (1 ≤ ls.length ∧ ls.length ≤ 2) ∧
    (bytesOf t.summary ≤ availFor cw t → ls.length = 1) ∧
    (availFor cw t < bytesOf t.summary →
      ((ls.length = 2 ↔
          greedyOverflow (availFor cw t) (splitWhite t.summary) = true) ∧
        (ls.length = 1 ↔
          greedyOverflow (availFor cw t) (splitWhite t.summary) = false))) := by
  simp only [ticketLines] at h
  split at h
  · rename_i hfits
    simp only [Option.some.injEq] at h
    subst h
    exact ⟨⟨by simp, by simp⟩, fun _ => by simp, fun hgt => absurd hfits (by omega)⟩
  · rename_i hbig
    split at h
    · exact absurd h (by simp)
    · rename_i first second heq
      have hwords : ∀ w ∈ splitWhite t.summary, w.data ≠ [] :=
        fun w hw => wordsAux_ne_empty t.summary.data [] w hw
      have hiff := fitWords_overflow_iff (availFor cw t) cw (splitWhite t.summary)
        "" 0 first second hwords heq
      have hbeq : (("" : String) == "") = true := by decide
      rw [hbeq] at hiff
      split at h
      · rename_i hsec
        simp only [Option.some.injEq] at h
        subst h
        have hgf : greedyOverflow (availFor cw t) (splitWhite t.summary) = false :=
          hiff.mp hsec
        refine ⟨⟨by simp, by simp⟩, fun _ => by simp, fun hgt => ⟨?_, ?_⟩⟩
        · constructor
          · intro h2
            simp at h2
          · intro hg
            rw [hgf] at hg
            cases hg
        · simp [hgf]
      · rename_i hsec
        simp only [Option.some.injEq] at h
        subst h
        have hgt' : greedyOverflow (availFor cw t) (splitWhite t.summary) = true := by
          cases hgb : greedyOverflow (availFor cw t) (splitWhite t.summary) with
          | true => rfl
          | false => exact absurd (hiff.mpr hgb) hsec
        refine ⟨⟨by simp, by simp⟩, fun hfit => absurd hfit hbig, fun hgt => ⟨?_, ?_⟩⟩
        · simp [hgt']
        · constructor
          · intro h1
            simp at h1
          · intro hg
            rw [hgt'] at hg
            cases hg

theorem c6_wrap_amended_witness :
    ((1 ≤ (["  ✓ K • aaaa", "    bbbb"] : List String).length ∧
        (["  ✓ K • aaaa", "    bbbb"] : List String).length ≤ 2) ∧
      (bytesOf (mkSumTicket "K" "aaaa bbbb").summary ≤
          availFor 14 (mkSumTicket "K" "aaaa bbbb") →
        (["  ✓ K • aaaa", "    bbbb"] : List String).length = 1) ∧
      (availFor 14 (mkSumTicket "K" "aaaa bbbb") <
          bytesOf (mkSumTicket "K" "aaaa bbbb").summary →
        (((["  ✓ K • aaaa", "    bbbb"] : List String).length = 2 ↔
            greedyOverflow (availFor 14 (mkSumTicket "K" "aaaa bbbb"))
              (splitWhite (mkSumTicket "K" "aaaa bbbb").summary) = true) ∧
          ((["  ✓ K • aaaa", "    bbbb"] : List String).length = 1 ↔
            greedyOverflow (availFor 14 (mkSumTicket "K" "aaaa bbbb"))
              (splitWhite (mkSumTicket "K" "aaaa bbbb").summary) = false)))) :=
  c6_wrap_amended 14 false (mkSumTicket "K" "aaaa bbbb")
    ["  ✓ K • aaaa", "    bbbb"] (by decide)

/-- C7: the claim says the overflow line "...and N more" appears exactly when
tickets were truncated, with N the count of unrendered tickets.  The code's
`take_while` predicate ignores its element, so its count is all-or-nothing:
here both tickets of the lane render (filling height 4 exactly: one line each
plus the separator), nothing is truncated, and still "...and 2 more" is
appended with N the whole lane size. -/
theorem c7_overflow_eval :
    drawLaneLines 80 4 [mkSumTicket "T-1" "a", mkSumTicket "T-2" "b"] none =
      some ["  ✓ T-1 • a", "", "  ✓ T-2 • b", "  ...and 2 more"] := by decide

/-- C8: pressing enter in Board mode with a resolvable selected ticket always
enters Detail mode with the scroll reset to 0; when the ticket has no
description yet and the synchronous fetch fails, the error text is stored in
the detail ticket's description rather than aborting the transition. -/
theorem c8_enter_detail (g : Groups) (fetch : String → Except String Ticket)
    (st : AppState) (t : Ticket)
    (hres : getTicketByIndex g st.selectedIndex = some t) :
    (boardEnter g fetch st).mode = .detail ∧
    (boardEnter g fetch st).detailScroll = 0 ∧
    ∀ e : String, t.description = none → fetch t.key = .error e →
      (boardEnter g fetch st).detailTicket =
        some { t with description := some ("[Error fetching details]\n\n" ++ e) } := by
  refine ⟨?_, ?_, fun e hdesc herr => ?_⟩
  · simp [boardEnter, hres]
  · simp [boardEnter, hres]
  · simp [boardEnter, hres, hdesc, herr]

theorem c8_enter_detail_witness :
    (boardEnter (fromTickets [ticketA1, ticketA2, ticketA3]) fetchFail
        boardState0).mode = .detail ∧
    (boardEnter (fromTickets [ticketA1, ticketA2, ticketA3]) fetchFail
        boardState0).detailScroll = 0 ∧
    ∀ e : String, ticketA2.description = none → fetchFail ticketA2.key = .error e →
      (boardEnter (fromTickets [ticketA1, ticketA2, ticketA3]) fetchFail
          boardState0).detailTicket =
        some { ticketA2 with description := some ("[Error fetching details]\n\n" ++ e) } :=
  c8_enter_detail (fromTickets [ticketA1, ticketA2, ticketA3]) fetchFail
    boardState0 ticketA2 (by decide)

/-- C9: for a non-empty board and a valid selected index, `move_down` followed
by `move_up` returns to the original index. -/
theorem c9_down_up_inverse (total i : Nat) (htotal : 0 < total) (hi : i < total) :
    moveUp total (moveDown total i) = i := by
  simp only [moveDown, moveUp, if_pos htotal]
  by_cases h : i + 1 < total
  · rw [Nat.mod_eq_of_lt h]
    simp
  · have hEq : i + 1 = total := by omega
    rw [hEq, Nat.mod_self]
    simp [htotal]
    omega

theorem c9_down_up_inverse_witness : moveUp 3 (moveDown 3 2) = 2 :=
  c9_down_up_inverse 3 2 (by decide) (by decide)

/-- C10: with the selected index at or past the total ticket count, enter in
Board mode is a complete no-op: the index resolves to no ticket and the whole
application state — mode, detail ticket, scroll, selection — is unchanged. -/
theorem c10_enter_out_of_range (g : Groups) (fetch : String → Except String Ticket)
    (st : AppState) (h : totalTickets g ≤ st.selectedIndex) :
    getTicketByIndex g st.selectedIndex = none ∧ boardEnter g fetch st = st := by
  have hn := getTicketByIndex_none g st.selectedIndex h
  exact ⟨hn, by simp [boardEnter, hn]⟩

theorem c10_enter_out_of_range_witness :
    getTicketByIndex (fromTickets [ticketA1, ticketA2, ticketA3])
        boardState5.selectedIndex = none ∧
    boardEnter (fromTickets [ticketA1, ticketA2, ticketA3]) fetchFail
        boardState5 = boardState5 :=
  c10_enter_out_of_range (fromTickets [ticketA1, ticketA2, ticketA3]) fetchFail
    boardState5 (by decide)


end Kanbars
